import Mathlib

/-!
Shallow embedding of `src/binaires/memory.c`.

The program has three functions: `get_node_pid` scans the `/proc`
directory for a numeric entry whose command line contains "node",
`get_memory_usage` parses the `/proc/<pid>/status` record with
`sscanf(line, "%s %ld kB", key, &value)`, and `display_memory`
renders the result.  The OS-provided inputs (directory listing,
per-process command-line record, per-process status record) are
modelled as explicit parameters; `Option` models an open or read
that fails.
-/

/-- Whitespace as recognized by `sscanf`/`isspace`: space, tab, newline,
vertical tab, form feed, carriage return. -/
def isScanSpace (c : Char) : Bool :=
  c == ' ' || c == '\t' || c == '\n' || c == '\r' || c == Char.ofNat 11 || c == Char.ofNat 12

/-- Decimal digit, the character class of `strspn(name, "0123456789")` and
of the `%ld` conversion. -/
def isDigitCh (c : Char) : Bool :=
  48 ≤ c.toNat && c.toNat ≤ 57

/-- Drop the leading whitespace run, as `%s` and `%ld` do before converting. -/
def dropSpaces : List Char → List Char
  | [] => []
  | c :: cs => if isScanSpace c then dropSpaces cs else c :: cs

/-- Split off the maximal leading non-whitespace run: the text matched by `%s`. -/
def takeToken : List Char → List Char × List Char
  | [] => ([], [])
  | c :: cs =>
    if isScanSpace c then ([], c :: cs)
    else
      let p := takeToken cs
      (c :: p.1, p.2)

/-- Split off the maximal leading digit run. -/
def takeDigits : List Char → List Char × List Char
  | [] => ([], [])
  | c :: cs =>
    if isDigitCh c then
      let p := takeDigits cs
      (c :: p.1, p.2)
    else ([], c :: cs)

/-- Value of a digit run read in base 10. -/
def digitsVal (ds : List Char) : Nat :=
  ds.foldl (fun a c => 10 * a + (c.toNat - 48)) 0

/-- Model of `sscanf(line, "%s %ld kB", key, &value) == 2`.

`%s` skips whitespace and reads a non-empty non-whitespace token; `%ld`
skips whitespace and reads an optional sign followed by at least one
decimal digit.  The trailing `" kB"` literal of the format cannot change
the returned count once both conversions have been assigned, so it does
not appear here: a line parses exactly when the token and the integer do. -/
def scanKV (cs : List Char) : Option (String × Int) :=
  let t := takeToken (dropSpaces cs)
  if t.1 = [] then none
  else
    match dropSpaces t.2 with
    | '-' :: rest =>
      let d := takeDigits rest
      if d.1 = [] then none else some (String.mk t.1, -(digitsVal d.1 : Int))
    | '+' :: rest =>
      let d := takeDigits rest
      if d.1 = [] then none else some (String.mk t.1, (digitsVal d.1 : Int))
    | rest =>
      let d := takeDigits rest
      if d.1 = [] then none else some (String.mk t.1, (digitsVal d.1 : Int))

/-- `scanKV` on a status-record line given as a string. -/
def scanKeyVal (line : String) : Option (String × Int) :=
  scanKV line.data

/-- The `memory_info` struct: four `long` fields, in kilobytes. -/
structure memory_info where
  vm_size : Int
  vm_rss : Int
  vm_data : Int
  vm_stack : Int
deriving DecidableEq, Repr

/-- `memory_info mem = {0};` — the zero-initialised record. -/
def memInit : memory_info :=
  { vm_size := 0, vm_rss := 0, vm_data := 0, vm_stack := 0 }

/-- One iteration of the parsing loop of `get_memory_usage`: if the line
scans as a key/value pair and the key text equals one of the four
recognized tokens (colon included), overwrite that field; otherwise
leave the record unchanged. -/
def applyLine (mem : memory_info) (line : String) : memory_info :=
  match scanKeyVal line with
  | some kv =>
    if kv.1 = "VmSize:" then { mem with vm_size := kv.2 }
    else if kv.1 = "VmRSS:" then { mem with vm_rss := kv.2 }
    else if kv.1 = "VmData:" then { mem with vm_data := kv.2 }
    else if kv.1 = "VmStk:" then { mem with vm_stack := kv.2 }
    else mem
  | none => mem

/-- `get_memory_usage`: the status record is `none` when the `fopen` of
`/proc/<pid>/status` fails, otherwise the list of lines delivered by
`fgets`.  An unopenable record returns the zero-initialised struct. -/
def get_memory_usage (statusFile : Option (List String)) : memory_info :=
  match statusFile with
  | none => memInit
  | some lines => lines.foldl applyLine memInit

/-- One `/proc` directory entry: its name, and the bytes `fgets` obtains
from `/proc/<name>/cmdline` (`none` when the open or the read fails). -/
structure ProcEntry where
  d_name : String
  cmdline : Option (List Char)
deriving DecidableEq, Repr

/-- `strspn(name, "0123456789") == strlen(name)`: every character of the
entry name is a decimal digit. -/
def isNumericName (s : String) : Bool :=
  s.data.all isDigitCh

/-- The C string seen by `strstr`: the bytes up to the first NUL. -/
def cStr (cs : List Char) : List Char :=
  cs.takeWhile (fun c => c != Char.ofNat 0)

/-- Whether `needle` is an initial segment of `hay`. -/
def beginsWith : List Char → List Char → Bool
  | _, [] => true
  | [], _ :: _ => false
  | c :: cs, d :: ds => c == d && beginsWith cs ds

/-- Literal case-sensitive substring search, the containment test of
`strstr`. -/
def containsSub (hay needle : List Char) : Bool :=
  match hay with
  | [] => beginsWith [] needle
  | c :: cs => beginsWith (c :: cs) needle || containsSub cs needle

/-- `strstr(cmdline, "node") != NULL` on the buffer `fgets` filled:
only the portion before the first NUL byte is searched. -/
def cmdlineMatch (cl : List Char) : Bool :=
  containsSub (cStr cl) ("node".data)

/-- `atoi`: skip whitespace, optional sign, then the leading digit run
(0 when there are no digits). -/
def atoi (s : String) : Int :=
  match dropSpaces s.data with
  | [] => 0
  | c :: cs =>
    if c = '-' then -(digitsVal (takeDigits cs).1 : Int)
    else if c = '+' then (digitsVal (takeDigits cs).1 : Int)
    else (digitsVal (takeDigits (c :: cs)).1 : Int)

/-- The `readdir` loop of `get_node_pid` over the remaining directory
entries: skip non-numeric names, skip entries whose command line cannot
be opened or read, return `atoi` of the first name whose command line
matches, `-1` when the listing is exhausted. -/
def scanEntries : List ProcEntry → Int
  | [] => -1
  | e :: rest =>
    if isNumericName e.d_name then
      match e.cmdline with
      | some cl => if cmdlineMatch cl then atoi e.d_name else scanEntries rest
      | none => scanEntries rest
    else scanEntries rest

/-- `get_node_pid`: `none` models `opendir("/proc")` failing, in which
case the result is `-1`; otherwise scan the entries in listing order. -/
def get_node_pid (procDir : Option (List ProcEntry)) : Int :=
  match procDir with
  | none => -1
  | some entries => scanEntries entries

/-- The acceptance test applied to a single entry by the scanning loop:
numeric name, readable command line, and a "node" occurrence before the
first NUL. -/
def matchesEntry (e : ProcEntry) : Bool :=
  isNumericName e.d_name &&
    (match e.cmdline with
     | some cl => cmdlineMatch cl
     | none => false)

/-- `printf("%.2f", x / 1024.0)` in hundredths: the exact rational
`x/1024` scaled by 100 and rounded to the nearest integer, ties to even.
For `|x| < 2^53` the double division by 1024 is exact and glibc's
correctly-rounded conversion realises precisely this value. -/
def mbCenti (x : Int) : Int :=
  if 2 * Int.emod (25 * x) 256 < 256 then Int.ediv (25 * x) 256
  else if 256 < 2 * Int.emod (25 * x) 256 then Int.ediv (25 * x) 256 + 1
  else if Int.emod (Int.ediv (25 * x) 256) 2 = 0 then Int.ediv (25 * x) 256
  else Int.ediv (25 * x) 256 + 1

/-- Render a hundredths count the way `%.2f` prints the corresponding
value: integer part, dot, two-digit fraction. -/
def fmt2 (c : Int) : String :=
  (if c < 0 then "-" else "") ++ toString (c.natAbs / 100) ++ "." ++
    (if c.natAbs % 100 < 10 then "0" else "") ++ toString (c.natAbs % 100)

/-- `display_memory` as the list of lines it prints, in print order. -/
def display_memory (mem : memory_info) : List String :=
  ["Memory Usage (KB):",
   "Virtual Size: " ++ toString mem.vm_size,
   "Physical RSS: " ++ toString mem.vm_rss,
   "Data Segment: " ++ toString mem.vm_data,
   "Stack Size: " ++ toString mem.vm_stack,
   "",
   "Memory Usage (MB):",
   "Virtual Size: " ++ fmt2 (mbCenti mem.vm_size),
   "Physical RSS: " ++ fmt2 (mbCenti mem.vm_rss)]

/-- `main`: the printed lines and the exit status, as functions of the
`/proc` listing and of the status record each pid would yield. -/
def mainRun (procDir : Option (List ProcEntry))
    (statusOf : Int → Option (List String)) : List String × Nat :=
  if get_node_pid procDir = -1 then
    (["No Node.js process found"], 1)
  else if (get_memory_usage (statusOf (get_node_pid procDir))).vm_size = 0 then
    (["Found Node.js process: PID " ++ toString (get_node_pid procDir),
      "Failed to read memory information"], 1)
  else
    (("Found Node.js process: PID " ++ toString (get_node_pid procDir)) ::
      display_memory (get_memory_usage (statusOf (get_node_pid procDir))), 0)

/-- The values assigned to the field named by `key`, one per line of the
record that scans with exactly that key text, in record order. -/
def updatesFor (key : String) (lines : List String) : List Int :=
  lines.filterMap fun l =>
    match scanKeyVal l with
    | some kv => if kv.1 = key then some kv.2 else none
    | none => none

/-- Last element of a list, or the default when the list is empty. -/
def lastD (d : Int) : List Int → Int
  | [] => d
  | v :: vs => lastD v vs

/-! Helper lemmas. -/

theorem digit_not_space (c : Char) (h : isDigitCh c = true) : isScanSpace c = false := by
  have h1 : c ≠ ' ' := fun hc => by subst hc; revert h; decide
  have h2 : c ≠ '\t' := fun hc => by subst hc; revert h; decide
  have h3 : c ≠ '\n' := fun hc => by subst hc; revert h; decide
  have h4 : c ≠ '\r' := fun hc => by subst hc; revert h; decide
  have h5 : c ≠ Char.ofNat 11 := fun hc => by subst hc; revert h; decide
  have h6 : c ≠ Char.ofNat 12 := fun hc => by subst hc; revert h; decide
  rw [Bool.eq_false_iff]
  intro hsp
  simp only [isScanSpace, Bool.or_eq_true, beq_iff_eq] at hsp
  rcases hsp with ((((hc | hc) | hc) | hc) | hc) | hc
  · exact h1 hc
  · exact h2 hc
  · exact h3 hc
  · exact h4 hc
  · exact h5 hc
  · exact h6 hc

theorem dropSpaces_of_head_digit (c : Char) (cs : List Char) (h : isDigitCh c = true) :
    dropSpaces (c :: cs) = c :: cs := by
  unfold dropSpaces
  rw [digit_not_space c h]
  simp

theorem takeDigits_all_digits (cs : List Char) (h : cs.all isDigitCh = true) :
    takeDigits cs = (cs, []) := by
  induction cs with
  | nil => rfl
  | cons c rest ih =>
    simp only [List.all_cons, Bool.and_eq_true] at h
    unfold takeDigits
    rw [h.1, ih h.2]
    rfl

theorem atoi_of_numeric (s : String) (h : isNumericName s = true) :
    atoi s = (digitsVal s.data : Int) := by
  unfold isNumericName at h
  unfold atoi
  cases hs : s.data with
  | nil => rfl
  | cons c cs =>
    rw [hs] at h
    simp only [List.all_cons, Bool.and_eq_true] at h
    rw [dropSpaces_of_head_digit c cs h.1]
    have hd : c ≠ '-' := fun hc => by rw [hc] at h; exact absurd h.1 (by decide)
    have hp : c ≠ '+' := fun hc => by rw [hc] at h; exact absurd h.1 (by decide)
    show (if c = '-' then -(digitsVal (takeDigits cs).1 : Int)
      else if c = '+' then (digitsVal (takeDigits cs).1 : Int)
      else (digitsVal (takeDigits (c :: cs)).1 : Int)) = (digitsVal (c :: cs) : Int)
    rw [if_neg hd, if_neg hp]
    rw [takeDigits_all_digits (c :: cs) (by simp [List.all_cons, h.1, h.2])]

theorem applyLine_vm_size (mem : memory_info) (l : String) :
    (applyLine mem l).vm_size =
      (match scanKeyVal l with
       | some kv => if kv.1 = "VmSize:" then kv.2 else mem.vm_size
       | none => mem.vm_size) := by
  unfold applyLine
  cases h : scanKeyVal l with
  | none => rfl
  | some kv =>
    by_cases h1 : kv.1 = "VmSize:"
    · simp [h1]
    · simp only [if_neg h1]
      split_ifs <;> rfl

theorem applyLine_vm_rss (mem : memory_info) (l : String) :
    (applyLine mem l).vm_rss =
      (match scanKeyVal l with
       | some kv => if kv.1 = "VmRSS:" then kv.2 else mem.vm_rss
       | none => mem.vm_rss) := by
  unfold applyLine
  cases h : scanKeyVal l with
  | none => rfl
  | some kv =>
    by_cases h1 : kv.1 = "VmSize:"
    · have h2 : ¬ kv.1 = "VmRSS:" := by rw [h1]; decide
      simp [h1, h2]
    · by_cases h2 : kv.1 = "VmRSS:"
      · simp [h1, h2]
      · simp only [if_neg h1, if_neg h2]
        split_ifs <;> rfl

theorem applyLine_vm_data (mem : memory_info) (l : String) :
    (applyLine mem l).vm_data =
      (match scanKeyVal l with
       | some kv => if kv.1 = "VmData:" then kv.2 else mem.vm_data
       | none => mem.vm_data) := by
  unfold applyLine
  cases h : scanKeyVal l with
  | none => rfl
  | some kv =>
    by_cases h1 : kv.1 = "VmSize:"
    · have h3 : ¬ kv.1 = "VmData:" := by rw [h1]; decide
      simp [h1, h3]
    · by_cases h2 : kv.1 = "VmRSS:"
      · have h3 : ¬ kv.1 = "VmData:" := by rw [h2]; decide
        simp [h1, h2, h3]
      · by_cases h3 : kv.1 = "VmData:"
        · simp [h1, h2, h3]
        · simp only [if_neg h1, if_neg h2, if_neg h3]
          split_ifs <;> rfl

theorem applyLine_vm_stack (mem : memory_info) (l : String) :
    (applyLine mem l).vm_stack =
      (match scanKeyVal l with
       | some kv => if kv.1 = "VmStk:" then kv.2 else mem.vm_stack
       | none => mem.vm_stack) := by
  unfold applyLine
  cases h : scanKeyVal l with
  | none => rfl
  | some kv =>
    by_cases h1 : kv.1 = "VmSize:"
    · have h4 : ¬ kv.1 = "VmStk:" := by rw [h1]; decide
      simp [h1, h4]
    · by_cases h2 : kv.1 = "VmRSS:"
      · have h4 : ¬ kv.1 = "VmStk:" := by rw [h2]; decide
        simp [h1, h2, h4]
      · by_cases h3 : kv.1 = "VmData:"
        · have h4 : ¬ kv.1 = "VmStk:" := by rw [h3]; decide
          simp [h1, h2, h3, h4]
        · by_cases h4 : kv.1 = "VmStk:"
          · simp [h1, h2, h3, h4]
          · simp only [if_neg h1, if_neg h2, if_neg h3, if_neg h4]

theorem updatesFor_cons_none (key l : String) (rest : List String)
    (h : scanKeyVal l = none) :
    updatesFor key (l :: rest) = updatesFor key rest := by
  unfold updatesFor
  rw [List.filterMap_cons, h]

theorem updatesFor_cons_other (key l : String) (rest : List String)
    (kv : String × Int) (h : scanKeyVal l = some kv) (hk : ¬ kv.1 = key) :
    updatesFor key (l :: rest) = updatesFor key rest := by
  unfold updatesFor
  rw [List.filterMap_cons, h]
  simp [hk]

theorem updatesFor_cons_hit (key l : String) (rest : List String)
    (kv : String × Int) (h : scanKeyVal l = some kv) (hk : kv.1 = key) :
    updatesFor key (l :: rest) = kv.2 :: updatesFor key rest := by
  unfold updatesFor
  rw [List.filterMap_cons, h]
  simp [hk]

theorem foldl_vm_size (lines : List String) :
    ∀ mem : memory_info,
      (lines.foldl applyLine mem).vm_size = lastD mem.vm_size (updatesFor "VmSize:" lines) := by
  induction lines with
  | nil => intro mem; rfl
  | cons l rest ih =>
    intro mem
    rw [List.foldl_cons, ih]
    cases h : scanKeyVal l with
    | none =>
      rw [updatesFor_cons_none _ _ _ h]
      have hv : (applyLine mem l).vm_size = mem.vm_size := by
        rw [applyLine_vm_size, h]
      rw [hv]
    | some kv =>
      by_cases hk : kv.1 = "VmSize:"
      · rw [updatesFor_cons_hit _ _ _ _ h hk]
        have hv : (applyLine mem l).vm_size = kv.2 := by
          rw [applyLine_vm_size, h]
          simp [hk]
        rw [hv]
        rfl
      · rw [updatesFor_cons_other _ _ _ _ h hk]
        have hv : (applyLine mem l).vm_size = mem.vm_size := by
          rw [applyLine_vm_size, h]
          simp [hk]
        rw [hv]

theorem foldl_vm_rss (lines : List String) :
    ∀ mem : memory_info,
      (lines.foldl applyLine mem).vm_rss = lastD mem.vm_rss (updatesFor "VmRSS:" lines) := by
  induction lines with
  | nil => intro mem; rfl
  | cons l rest ih =>
    intro mem
    rw [List.foldl_cons, ih]
    cases h : scanKeyVal l with
    | none =>
      rw [updatesFor_cons_none _ _ _ h]
      have hv : (applyLine mem l).vm_rss = mem.vm_rss := by
        rw [applyLine_vm_rss, h]
      rw [hv]
    | some kv =>
      by_cases hk : kv.1 = "VmRSS:"
      · rw [updatesFor_cons_hit _ _ _ _ h hk]
        have hv : (applyLine mem l).vm_rss = kv.2 := by
          rw [applyLine_vm_rss, h]
          simp [hk]
        rw [hv]
        rfl
      · rw [updatesFor_cons_other _ _ _ _ h hk]
        have hv : (applyLine mem l).vm_rss = mem.vm_rss := by
          rw [applyLine_vm_rss, h]
          simp [hk]
        rw [hv]

theorem foldl_vm_data (lines : List String) :
    ∀ mem : memory_info,
      (lines.foldl applyLine mem).vm_data = lastD mem.vm_data (updatesFor "VmData:" lines) := by
  induction lines with
  | nil => intro mem; rfl
  | cons l rest ih =>
    intro mem
    rw [List.foldl_cons, ih]
    cases h : scanKeyVal l with
    | none =>
      rw [updatesFor_cons_none _ _ _ h]
      have hv : (applyLine mem l).vm_data = mem.vm_data := by
        rw [applyLine_vm_data, h]
      rw [hv]
    | some kv =>
      by_cases hk : kv.1 = "VmData:"
      · rw [updatesFor_cons_hit _ _ _ _ h hk]
        have hv : (applyLine mem l).vm_data = kv.2 := by
          rw [applyLine_vm_data, h]
          simp [hk]
        rw [hv]
        rfl
      · rw [updatesFor_cons_other _ _ _ _ h hk]
        have hv : (applyLine mem l).vm_data = mem.vm_data := by
          rw [applyLine_vm_data, h]
          simp [hk]
        rw [hv]

theorem foldl_vm_stack (lines : List String) :
    ∀ mem : memory_info,
      (lines.foldl applyLine mem).vm_stack = lastD mem.vm_stack (updatesFor "VmStk:" lines) := by
  induction lines with
  | nil => intro mem; rfl
  | cons l rest ih =>
    intro mem
    rw [List.foldl_cons, ih]
    cases h : scanKeyVal l with
    | none =>
      rw [updatesFor_cons_none _ _ _ h]
      have hv : (applyLine mem l).vm_stack = mem.vm_stack := by
        rw [applyLine_vm_stack, h]
      rw [hv]
    | some kv =>
      by_cases hk : kv.1 = "VmStk:"
      · rw [updatesFor_cons_hit _ _ _ _ h hk]
        have hv : (applyLine mem l).vm_stack = kv.2 := by
          rw [applyLine_vm_stack, h]
          simp [hk]
        rw [hv]
        rfl
      · rw [updatesFor_cons_other _ _ _ _ h hk]
        have hv : (applyLine mem l).vm_stack = mem.vm_stack := by
          rw [applyLine_vm_stack, h]
          simp [hk]
        rw [hv]

theorem scanEntries_eq_find (entries : List ProcEntry) :
    scanEntries entries =
      (match entries.find? matchesEntry with
       | some e => atoi e.d_name
       | none => -1) := by
  induction entries with
  | nil => rfl
  | cons e rest ih =>
    simp only [scanEntries]
    by_cases hm : matchesEntry e = true
    · rw [List.find?_cons_of_pos _ hm]
      unfold matchesEntry at hm
      rw [Bool.and_eq_true] at hm
      obtain ⟨hn, hc⟩ := hm
      rw [if_pos hn]
      cases hcl : e.cmdline with
      | none => rw [hcl] at hc; simp at hc
      | some cl =>
        rw [hcl] at hc
        dsimp only at hc
        dsimp only
        rw [if_pos hc]
    · rw [List.find?_cons_of_neg _ hm, ← ih]
      by_cases hn : isNumericName e.d_name
      · rw [if_pos hn]
        cases hcl : e.cmdline with
        | none => rfl
        | some cl =>
          have hcm : cmdlineMatch cl = false := by
            rw [Bool.eq_false_iff]
            intro hc
            exact hm (by unfold matchesEntry; rw [Bool.and_eq_true, hcl]; exact ⟨hn, hc⟩)
          dsimp only
          rw [hcm]
          simp
      · rw [if_neg hn]

theorem applyLine_nonneg (mem : memory_info) (l : String)
    (hl : ∀ k v, scanKeyVal l = some (k, v) → 0 ≤ v)
    (h1 : 0 ≤ mem.vm_size) (h2 : 0 ≤ mem.vm_rss)
    (h3 : 0 ≤ mem.vm_data) (h4 : 0 ≤ mem.vm_stack) :
    0 ≤ (applyLine mem l).vm_size ∧ 0 ≤ (applyLine mem l).vm_rss ∧
      0 ≤ (applyLine mem l).vm_data ∧ 0 ≤ (applyLine mem l).vm_stack := by
  unfold applyLine
  cases hs : scanKeyVal l with
  | none => exact ⟨h1, h2, h3, h4⟩
  | some kv =>
    have hv : 0 ≤ kv.2 := hl kv.1 kv.2 (by rw [hs])
    dsimp only
    split_ifs
    · exact ⟨hv, h2, h3, h4⟩
    · exact ⟨h1, hv, h3, h4⟩
    · exact ⟨h1, h2, hv, h4⟩
    · exact ⟨h1, h2, h3, hv⟩
    · exact ⟨h1, h2, h3, h4⟩

theorem foldl_nonneg (lines : List String) :
    ∀ mem : memory_info,
      (∀ l ∈ lines, ∀ k v, scanKeyVal l = some (k, v) → 0 ≤ v) →
      0 ≤ mem.vm_size → 0 ≤ mem.vm_rss → 0 ≤ mem.vm_data → 0 ≤ mem.vm_stack →
      0 ≤ (lines.foldl applyLine mem).vm_size ∧
        0 ≤ (lines.foldl applyLine mem).vm_rss ∧
        0 ≤ (lines.foldl applyLine mem).vm_data ∧
        0 ≤ (lines.foldl applyLine mem).vm_stack := by
  induction lines with
  | nil => intro mem _ h1 h2 h3 h4; exact ⟨h1, h2, h3, h4⟩
  | cons l rest ih =>
    intro mem hall h1 h2 h3 h4
    rw [List.foldl_cons]
    obtain ⟨g1, g2, g3, g4⟩ :=
      applyLine_nonneg mem l (hall l (List.mem_cons_self l rest)) h1 h2 h3 h4
    exact ih (applyLine mem l) (fun x hx => hall x (List.mem_cons_of_mem l hx)) g1 g2 g3 g4

theorem cStr_append_nul (pre suf : List Char) (h : Char.ofNat 0 ∉ pre) :
    cStr (pre ++ Char.ofNat 0 :: suf) = pre := by
  induction pre with
  | nil =>
    simp only [List.nil_append]
    unfold cStr
    rw [List.takeWhile_cons]
    simp
  | cons c cs ih =>
    have hc : c ≠ Char.ofNat 0 := fun hc => h (hc ▸ List.mem_cons_self c cs)
    have hcs : Char.ofNat 0 ∉ cs := fun hm => h (List.mem_cons_of_mem c hm)
    simp only [List.cons_append]
    unfold cStr
    rw [List.takeWhile_cons]
    have : (c != Char.ofNat 0) = true := by
      rw [bne_iff_ne]
      exact hc
    rw [this]
    simp only [if_pos rfl]
    have := ih hcs
    unfold cStr at this
    rw [this]
    simp

/-! Claim theorems. -/

/-- Claim C1 counterexample: the record line "VmSize: 1234" lacks the kB
suffix, so under the claim it is malformed and must leave the field at its
prior value 0; the code updates the field to 1234, because the return value
of sscanf counts assigned conversions and the trailing literal cannot
reduce it below 2. -/
theorem missing_suffix_line_updates_cex :
    (get_memory_usage (some ["VmSize: 1234"])).vm_size = 1234 ∧
    ¬ (get_memory_usage (some ["VmSize: 1234"])).vm_size = 0 := by
  decide

/-- Claim C1 (amended): a status-record line updates a field exactly when
both sscanf conversions assign — a whitespace-delimited token equal,
trailing colon included, to one of VmSize:, VmRSS:, VmData:, VmStk:,
followed by whitespace and a signed decimal integer; the text after the
integer, in particular the kB suffix, is never checked.  A line with a
missing colon, a non-numeric value, or an unrecognized key leaves every
field at its prior value. -/
theorem applyLine_update_characterization (mem : memory_info) (line : String) :
    (scanKeyVal line = none → applyLine mem line = mem) ∧
    (∀ v : Int, scanKeyVal line = some ("VmSize:", v) →
      applyLine mem line = { mem with vm_size := v }) ∧
    (∀ v : Int, scanKeyVal line = some ("VmRSS:", v) →
      applyLine mem line = { mem with vm_rss := v }) ∧
    (∀ v : Int, scanKeyVal line = some ("VmData:", v) →
      applyLine mem line = { mem with vm_data := v }) ∧
    (∀ v : Int, scanKeyVal line = some ("VmStk:", v) →
      applyLine mem line = { mem with vm_stack := v }) ∧
    (∀ kv : String × Int, scanKeyVal line = some kv →
      ¬ kv.1 = "VmSize:" → ¬ kv.1 = "VmRSS:" → ¬ kv.1 = "VmData:" → ¬ kv.1 = "VmStk:" →
      applyLine mem line = mem) ∧
    applyLine mem "VmSize: 1234 kB" = { mem with vm_size := 1234 } ∧
    applyLine mem "VmSize 1234 kB" = mem ∧
    applyLine mem "VmSize: x kB" = mem ∧
    applyLine mem "VmSize: 1234" = { mem with vm_size := 1234 } ∧
    get_memory_usage (some [line]) = applyLine memInit line := by
  refine ⟨?_, ?_, ?_, ?_, ?_, ?_, ?_, ?_, ?_, ?_, rfl⟩
  · intro h; simp [applyLine, h]
  · intro v h; simp [applyLine, h]
  · intro v h; simp [applyLine, h]
  · intro v h; simp [applyLine, h]
  · intro v h; simp [applyLine, h]
  · intro kv h h1 h2 h3 h4; simp [applyLine, h, h1, h2, h3, h4]
  · rfl
  · rfl
  · rfl
  · rfl

/-- Witness for the amended C1 characterization at a concrete line. -/
theorem applyLine_update_characterization_witness :
    applyLine memInit "VmRSS: 99 kB" = { memInit with vm_rss := 99 } :=
  (applyLine_update_characterization memInit "VmRSS: 99 kB").2.2.1 99 (by decide)

/-- Claim C2: `get_node_pid` considers exactly the wholly numeric directory
entries whose command-line record is readable, returns `atoi` of the first
one (in listing order) whose scanned command-line text contains "node", and
returns -1 when the listing is exhausted without a match; on an all-digit
name `atoi` yields the denoted number. -/
theorem get_node_pid_first_match (entries : List ProcEntry) :
    (get_node_pid (some entries) =
      (match entries.find? matchesEntry with
       | some e => atoi e.d_name
       | none => -1)) ∧
    (∀ s : String, isNumericName s = true → atoi s = (digitsVal s.data : Int)) :=
  ⟨scanEntries_eq_find entries, atoi_of_numeric⟩

/-- Witness for C2: the first matching entry wins even when a later entry
also matches. -/
theorem get_node_pid_first_match_witness :
    get_node_pid (some [⟨"21", some ('x' :: 'n' :: 'o' :: 'd' :: 'e' :: [])⟩,
                        ⟨"3", some ('n' :: 'o' :: 'd' :: 'e' :: [])⟩]) = 21 := by
  have h := (get_node_pid_first_match [⟨"21", some ('x' :: 'n' :: 'o' :: 'd' :: 'e' :: [])⟩,
      ⟨"3", some ('n' :: 'o' :: 'd' :: 'e' :: [])⟩]).1
  rw [h]
  decide

/-- Claim C3: the program exits with status 1 after printing a diagnostic
exactly when the locator returns -1 or the parsed record's virtual size is
0; in every other case it prints the found pid followed by the metrics
display and exits with status 0. -/
theorem main_exit_behavior (p : Option (List ProcEntry))
    (s : Int → Option (List String)) :
    ((mainRun p s).2 = 1 ↔
      (get_node_pid p = -1 ∨ (get_memory_usage (s (get_node_pid p))).vm_size = 0)) ∧
    ((mainRun p s).2 = 1 →
      (mainRun p s).1.getLast? = some "No Node.js process found" ∨
      (mainRun p s).1.getLast? = some "Failed to read memory information") ∧
    ((mainRun p s).2 ≠ 1 →
      (mainRun p s).2 = 0 ∧
      (mainRun p s).1 =
        ("Found Node.js process: PID " ++ toString (get_node_pid p)) ::
          display_memory (get_memory_usage (s (get_node_pid p)))) := by
  by_cases h1 : get_node_pid p = -1
  · refine ⟨?_, ?_, ?_⟩
    · simp [mainRun, h1]
    · intro _; left; simp [mainRun, h1]
    · intro hne; exact absurd (by simp [mainRun, h1]) hne
  · by_cases h2 : (get_memory_usage (s (get_node_pid p))).vm_size = 0
    · refine ⟨?_, ?_, ?_⟩
      · simp [mainRun, h1, h2]
      · intro _; right; simp [mainRun, h1, h2]
      · intro hne; exact absurd (by simp [mainRun, h1, h2]) hne
    · refine ⟨?_, ?_, ?_⟩
      · simp [mainRun, h1, h2]
      · intro hx; exact absurd hx (by simp [mainRun, h1, h2])
      · intro _
        constructor
        · simp [mainRun, h1, h2]
        · simp [mainRun, h1, h2]

/-- Witness for C3 at the empty-table input: no process is found and the
program exits 1. -/
theorem main_exit_behavior_witness :
    (mainRun none (fun _ => none)).2 = 1 :=
  (main_exit_behavior none (fun _ => none)).1.mpr (Or.inl rfl)

/-- Claim C4: when the status record cannot be opened, `get_memory_usage`
returns the zero-initialised record — all four fields are zero, and the
function signals the failure in no other way (its type offers no other
channel). -/
theorem get_memory_usage_unopened_zero :
    get_memory_usage none = memInit ∧
    (get_memory_usage none).vm_size = 0 ∧ (get_memory_usage none).vm_rss = 0 ∧
    (get_memory_usage none).vm_data = 0 ∧ (get_memory_usage none).vm_stack = 0 :=
  ⟨rfl, rfl, rfl, rfl, rfl⟩

/-- Claim C5 counterexample: the status line "VmSize: -5 kB" is accepted by
the `%ld` conversion, so the returned field is -5, refuting the claim that
every field is non-negative for every input status record. -/
theorem negative_value_field_cex :
    (get_memory_usage (some ["VmSize: -5 kB"])).vm_size = -5 ∧
    (get_memory_usage (some ["VmSize: -5 kB"])).vm_size < 0 := by
  decide

/-- Claim C5 (amended): a freshly constructed record has all four fields
zero, and every field of the record returned by `get_memory_usage` is
non-negative provided every value scanned from the record is non-negative;
since `%ld` accepts a sign, a record carrying a negative value produces a
negative field. -/
theorem get_memory_usage_fields_nonneg (lines : List String)
    (h : ∀ l ∈ lines, ∀ k v, scanKeyVal l = some (k, v) → 0 ≤ v) :
    memInit.vm_size = 0 ∧ memInit.vm_rss = 0 ∧
    memInit.vm_data = 0 ∧ memInit.vm_stack = 0 ∧
    0 ≤ (get_memory_usage (some lines)).vm_size ∧
    0 ≤ (get_memory_usage (some lines)).vm_rss ∧
    0 ≤ (get_memory_usage (some lines)).vm_data ∧
    0 ≤ (get_memory_usage (some lines)).vm_stack := by
  obtain ⟨g1, g2, g3, g4⟩ :=
    foldl_nonneg lines memInit h (by decide) (by decide) (by decide) (by decide)
  exact ⟨rfl, rfl, rfl, rfl, g1, g2, g3, g4⟩

/-- Witness for the amended C5 theorem on a record whose values are all
non-negative. -/
theorem get_memory_usage_fields_nonneg_witness :
    0 ≤ (get_memory_usage (some ["VmSize: 10 kB"])).vm_size :=
  (get_memory_usage_fields_nonneg ["VmSize: 10 kB"] (by
    intro l hl k v hs
    have hl2 : l = "VmSize: 10 kB" := by simpa using hl
    subst hl2
    have h10 : scanKeyVal "VmSize: 10 kB" = some ("VmSize:", (10 : Int)) := by decide
    rw [h10] at hs
    injection hs with h2
    injection h2 with hk hv
    rw [← hv]
    decide)).2.2.2.2.1

/-- Claim C6: when a recognized key occurs on several lines of the record,
the final field value is the value of the last such line — each field of the
parsed record equals the last scanned value for its key, or 0 when there is
none. -/
theorem get_memory_usage_last_wins (lines : List String) :
    (get_memory_usage (some lines)).vm_size = lastD 0 (updatesFor "VmSize:" lines) ∧
    (get_memory_usage (some lines)).vm_rss = lastD 0 (updatesFor "VmRSS:" lines) ∧
    (get_memory_usage (some lines)).vm_data = lastD 0 (updatesFor "VmData:" lines) ∧
    (get_memory_usage (some lines)).vm_stack = lastD 0 (updatesFor "VmStk:" lines) :=
  ⟨foldl_vm_size lines memInit, foldl_vm_rss lines memInit,
   foldl_vm_data lines memInit, foldl_vm_stack lines memInit⟩

/-- Witness for C6 on a record with a duplicated key: the later line wins. -/
theorem get_memory_usage_last_wins_witness :
    (get_memory_usage (some ["VmSize: 1 kB", "VmSize: 2 kB"])).vm_size = 2 :=
  ((get_memory_usage_last_wins ["VmSize: 1 kB", "VmSize: 2 kB"]).1).trans (by decide)

/-- Claim C7: the display lists the four fields in kilobytes in the fixed
order virtual, RSS, data, stack, then virtual size and RSS in megabytes
(kilobytes divided by 1024, rounded to two decimal places); 2048 KB shows
as 2.00 and 1536 KB as 1.50. -/
theorem display_memory_order_and_mb (mem : memory_info) :
    display_memory mem =
      ["Memory Usage (KB):",
       "Virtual Size: " ++ toString mem.vm_size,
       "Physical RSS: " ++ toString mem.vm_rss,
       "Data Segment: " ++ toString mem.vm_data,
       "Stack Size: " ++ toString mem.vm_stack,
       "",
       "Memory Usage (MB):",
       "Virtual Size: " ++ fmt2 (mbCenti mem.vm_size),
       "Physical RSS: " ++ fmt2 (mbCenti mem.vm_rss)] ∧
    mbCenti 2048 = 200 ∧ fmt2 (mbCenti 2048) = "2.00" ∧
    mbCenti 1536 = 150 ∧ fmt2 (mbCenti 1536) = "1.50" :=
  ⟨rfl, by decide, by decide, by decide, by decide⟩

/-- Witness for C7 at the zero record. -/
theorem display_memory_order_and_mb_witness :
    display_memory memInit =
      ["Memory Usage (KB):", "Virtual Size: 0", "Physical RSS: 0",
       "Data Segment: 0", "Stack Size: 0", "", "Memory Usage (MB):",
       "Virtual Size: 0.00", "Physical RSS: 0.00"] := by
  have h := (display_memory_order_and_mb memInit).1
  rw [h]
  decide

/-- Claim C8: `get_memory_usage` is deterministic over the record contents:
two reads of the same static status record yield identical values. -/
theorem get_memory_usage_deterministic (f g : Option (List String)) (h : f = g) :
    get_memory_usage f = get_memory_usage g :=
  congrArg get_memory_usage h

/-- Witness for C8: reading one concrete record twice gives equal results. -/
theorem get_memory_usage_deterministic_witness :
    get_memory_usage (some ["VmSize: 3 kB"]) = get_memory_usage (some ["VmSize: 3 kB"]) :=
  get_memory_usage_deterministic (some ["VmSize: 3 kB"]) (some ["VmSize: 3 kB"]) rfl

/-- Claim C9: an unopenable process listing makes `get_node_pid` return -1,
the same value it returns when no entry matches, so the caller cannot tell
an unreadable process table from an exhausted search. -/
theorem get_node_pid_unreadable_indistinguishable (entries : List ProcEntry)
    (h : entries.find? matchesEntry = none) :
    get_node_pid none = -1 ∧ get_node_pid (some entries) = -1 ∧
    get_node_pid (some entries) = get_node_pid none := by
  have h2 : get_node_pid (some entries) = -1 := by
    have h3 := scanEntries_eq_find entries
    rw [h] at h3
    exact h3
  exact ⟨rfl, h2, h2⟩

/-- Witness for C9 on a listing whose only entry has a non-numeric name. -/
theorem get_node_pid_unreadable_witness :
    get_node_pid (some [⟨"self", some ('n' :: 'o' :: 'd' :: 'e' :: [])⟩]) =
      get_node_pid none :=
  (get_node_pid_unreadable_indistinguishable
    [⟨"self", some ('n' :: 'o' :: 'd' :: 'e' :: [])⟩] (by decide)).2.2

/-- Claim C10: the locator's substring test scans only the command-line
bytes before the first NUL: the C string cuts off there, the match result
ignores everything after it, and a "node" occurring only after the first
NUL is never matched. -/
theorem strstr_stops_at_first_nul (pre suf : List Char) (h : Char.ofNat 0 ∉ pre) :
    cStr (pre ++ Char.ofNat 0 :: suf) = pre ∧
    cmdlineMatch (pre ++ Char.ofNat 0 :: suf) = containsSub pre ("node".data) ∧
    get_node_pid (some [⟨"5",
      some ('a' :: Char.ofNat 0 :: ('n' :: 'o' :: 'd' :: 'e' :: []))⟩]) = -1 := by
  refine ⟨cStr_append_nul pre suf h, ?_, by decide⟩
  unfold cmdlineMatch
  rw [cStr_append_nul pre suf h]

/-- Witness for C10: a NUL placed before "node" hides it from the match. -/
theorem strstr_stops_at_first_nul_witness :
    cmdlineMatch (('a' :: []) ++ Char.ofNat 0 :: ('n' :: 'o' :: 'd' :: 'e' :: [])) =
      containsSub ('a' :: []) ("node".data) :=
  (strstr_stops_at_first_nul ('a' :: []) ('n' :: 'o' :: 'd' :: 'e' :: []) (by decide)).2.1
